import Mathlib

/-!
Shallow embedding of the feed-generation pipeline of the github-rss
repository (Meteor/TypeScript).  Each definition transcribes one function
of the source; machine dates are modelled as integer milliseconds, the
outcomes of network calls (GitHub fetch, S3 upload) are passed in as
explicit oracles, and JavaScript's `Date.toUTCString` formatting is left
uninterpreted (the date string passes through unchanged), since no
verified property depends on the textual form of a date.
-/

namespace GithubRss

/-- The four feed types, `src/imports/api/types.ts`. -/
inductive FeedType
  | issues
  | pullRequests
  | discussions
  | releases
deriving DecidableEq, Repr

/-- Repository status, `src/imports/api/types.ts`. -/
inductive RepoStatus
  | pending
  | generating
  | ready
  | error
deriving DecidableEq, Repr

/-- The `feeds` mapping of a repository record: one optional retrieval URL
per feed type (`Repository['feeds']` in `types.ts`). -/
structure Feeds where
  issues : Option String
  pullRequests : Option String
  discussions : Option String
  releases : Option String
deriving DecidableEq, Repr

def Feeds.get (f : Feeds) : FeedType → Option String
  | .issues => f.issues
  | .pullRequests => f.pullRequests
  | .discussions => f.discussions
  | .releases => f.releases

def emptyFeeds : Feeds := ⟨none, none, none, none⟩

/-- The persisted repository record (`GithubRepo` / `Repository` in
`types.ts`); `_id` is optional, dates are integer milliseconds. -/
structure Repository where
  id : Option String
  url : String
  owner : String
  repo : String
  createdAt : Int
  lastUpdate : Option Int
  feeds : Feeds
  status : RepoStatus
  error : Option String
deriving DecidableEq, Repr

/-- A raw GitHub API item, with only the fields `processRSSItem` reads.
Optional fields model JavaScript `undefined`. -/
structure GitHubItem where
  number : Nat
  title : Option String
  html_url : String
  body : Option String
  created_at : String
  published_at : Option String
  tag_name : Option String
  name : Option String
deriving DecidableEq, Repr

/-- JavaScript `x || d` for a possibly-undefined string `x`: the default is
taken when `x` is `undefined` or the empty string (both falsy). -/
def jsOrDefault (x : Option String) (d : String) : String :=
  match x with
  | none => d
  | some s => if s = "" then d else s

/-- JavaScript `a || b` where both sides are possibly-undefined strings. -/
def jsOrOpt (a b : Option String) : Option String :=
  match a with
  | none => b
  | some s => if s = "" then b else some s

/-- JavaScript template interpolation of a possibly-undefined string:
`undefined` renders as the literal text "undefined". -/
def jsInterp (x : Option String) : String :=
  match x with
  | none => "undefined"
  | some s => s

/-- JavaScript `new Date(s).toUTCString()`, left uninterpreted: the date
string passes through unchanged.  No claim depends on date formatting. -/
def jsDateToUTCString (s : String) : String := s

end GithubRss

namespace GithubRss

/-! ### cleanDescription (`src/imports/api/repositories/methods.ts` 275-284)

The four chained `String.replace` regex passes are transcribed as
recursive functions on `List Char`, each reproducing the JavaScript
regex-engine behaviour: leftmost match, advance one character on a failed
attempt, continue after the end of a successful match.  -/

/-- True when the list starts with three backticks (the fenced-code-block
opening of `/``` .. ```/`). -/
def startsWithFence (l : List Char) : Bool :=
  match l with
  | '`' :: '`' :: '`' :: _ => true
  | _ => false

/-- Scan for the earliest closing triple backtick; return the remainder
after it.  This is the lazy `[\s\S]*?` of the fenced-code-block regex. -/
def dropThroughFence : List Char → Option (List Char)
  | [] => none
  | c :: rest =>
    if startsWithFence (c :: rest) then some (rest.drop 2)
    else dropThroughFence rest

/-- Fuel-indexed scanner for the first regex pass.  Every step consumes at
least one character, so `fuel = l.length` never runs out; the fuel only
makes the recursion structural. -/
def stripCodeBlocksF : Nat → List Char → List Char
  | _, [] => []
  | 0, l => l
  | fuel + 1, c :: rest =>
    if startsWithFence (c :: rest) then
      match dropThroughFence (rest.drop 2) with
      | some rest2 => "[code block]".data ++ stripCodeBlocksF fuel rest2
      | none => c :: stripCodeBlocksF fuel rest
    else
      c :: stripCodeBlocksF fuel rest

/-- First regex pass: `.replace(/```[\s\S]*?```/g, '[code block]')`. -/
def stripCodeBlocks (l : List Char) : List Char :=
  stripCodeBlocksF l.length l

/-- Split a list at the first occurrence of character `ch`: the part
before it and the part after it (the occurrence itself dropped). -/
def spanUntilChar (ch : Char) (l : List Char) : Option (List Char × List Char) :=
  match l.dropWhile (fun c => c ≠ ch) with
  | [] => none
  | _ :: rest => some (l.takeWhile (fun c => c ≠ ch), rest)

/-- Fuel-indexed scanner for the second regex pass,
`.replace(/`([^`]+)`/g, '$1')` (inline code, keeping the inner text). -/
def stripInlineCodeF : Nat → List Char → List Char
  | _, [] => []
  | 0, l => l
  | fuel + 1, c :: rest =>
    if c = '`' then
      match spanUntilChar '`' rest with
      | some (content, rest2) =>
        if content = [] then c :: stripInlineCodeF fuel rest
        else content ++ stripInlineCodeF fuel rest2
      | none => c :: stripInlineCodeF fuel rest
    else
      c :: stripInlineCodeF fuel rest

/-- Second regex pass: `.replace(/`([^`]+)`/g, '$1')`. -/
def stripInlineCode (l : List Char) : List Char :=
  stripInlineCodeF l.length l

/-- Fuel-indexed scanner for the third regex pass,
`.replace(/\[([^\]]+)\]\([^)]+\)/g, '$1')` (markdown links, keeping the
link text and dropping the URL). -/
def stripLinksF : Nat → List Char → List Char
  | _, [] => []
  | 0, l => l
  | fuel + 1, c :: rest =>
    if c = '[' then
      match spanUntilChar ']' rest with
      | some (content, rest2) =>
        if content = [] then c :: stripLinksF fuel rest
        else
          match rest2 with
          | '(' :: rest3 =>
            match spanUntilChar ')' rest3 with
            | some (url, rest4) =>
              if url = [] then c :: stripLinksF fuel rest
              else content ++ stripLinksF fuel rest4
            | none => c :: stripLinksF fuel rest
          | _ => c :: stripLinksF fuel rest
      | none => c :: stripLinksF fuel rest
    else
      c :: stripLinksF fuel rest

/-- Third regex pass: `.replace(/\[([^\]]+)\]\([^)]+\)/g, '$1')`. -/
def stripLinks (l : List Char) : List Char :=
  stripLinksF l.length l

/-- Fourth regex pass: `.replace(/[#*_]/g, '')`. -/
def stripMarkers (l : List Char) : List Char :=
  l.filter (fun c => !(c == '#' || c == '*' || c == '_'))

/-- `cleanDescription` (`methods.ts` 275-284): the four passes, then
`substring(0, 500)`, then `"..."` appended when the cleaned string is
shorter than the original. -/
def cleanDescription (description : String) : String :=
  let cleaned :=
    String.mk ((stripMarkers (stripLinks (stripInlineCode
      (stripCodeBlocks description.data)))).take 500)
  if cleaned.length < description.length then cleaned ++ "..." else cleaned

/-! ### parseGitHubUrl (`methods.ts` 221-235)

`githubUrl.match(/github\.com\/([^\/]+)\/([^\/]+)/)`: the regex engine
looks for the leftmost position where the literal `github.com/` is
followed by a non-empty run of non-slash characters, a slash, and another
non-empty run of non-slash characters; on a failed attempt it advances one
character.  Afterwards one trailing `.git` is stripped from the second
capture (`repo.replace(/\.git$/, '')`). -/

/-- The literal part of the URL regex. -/
def ghMarker : List Char := "github.com/".data

/-- Strip an expected literal prefix, or fail. -/
def stripPrefixChars : List Char → List Char → Option (List Char)
  | [], l => some l
  | _ :: _, [] => none
  | p :: ps, c :: cs => if c = p then stripPrefixChars ps cs else none

/-- The character class `[^\/]` of the URL regex. -/
def isNotSlash (c : Char) : Bool := c ≠ '/'

/-- Attempt the whole regex at the current position: the literal
`github.com/`, then a non-empty run of non-slash characters (`[^\/]+`,
greedy, so up to the next slash), a slash, and another non-empty run of
non-slash characters. -/
def tryMatchAt (l : List Char) : Option (List Char × List Char) :=
  match stripPrefixChars ghMarker l with
  | none => none
  | some t =>
    if t.takeWhile isNotSlash = [] then none
    else
      match t.dropWhile isNotSlash with
      | [] => none
      | _ :: t3 =>
        if t3.takeWhile isNotSlash = [] then none
        else some (t.takeWhile isNotSlash, t3.takeWhile isNotSlash)

/-- Leftmost-match search: try the pattern at every position. -/
def findGitHubMatch : List Char → Option (List Char × List Char)
  | [] => none
  | c :: rest =>
    match tryMatchAt (c :: rest) with
    | some p => some p
    | none => findGitHubMatch rest

/-- Whether a character list ends with `.git`. -/
def endsWithDotGit (l : List Char) : Bool :=
  ".git".data.reverse.isPrefixOf l.reverse

/-- `repo.replace(/\.git$/, '')`: drop one trailing `.git` when present. -/
def stripGitSuffix (l : List Char) : List Char :=
  if endsWithDotGit l then (l.reverse.drop 4).reverse else l

/-- The value returned by `parseGitHubUrl` on success. -/
structure ParsedUrl where
  owner : String
  repo : String
  fullUrl : String
deriving DecidableEq, Repr

/-- `parseGitHubUrl` (`methods.ts` 221-235); `none` models the thrown
`invalid-url` Meteor error. -/
def parseGitHubUrl (githubUrl : String) : Option ParsedUrl :=
  match findGitHubMatch githubUrl.data with
  | none => none
  | some (o, rRaw) =>
    let owner := String.mk o
    let repo := String.mk (stripGitSuffix rRaw)
    some ⟨owner, repo, "https://github.com/" ++ owner ++ "/" ++ repo⟩

/-! ### Staleness policy and record store transitions -/

/-- Thirty minutes in milliseconds, the staleness window used by
`repositoryNeedsRefresh` and `getFeedsWithCache`. -/
def thirtyMinutesMs : Int := 30 * 60 * 1000

/-- `repositoryNeedsRefresh` (`src/unnamed/part_003` 105-113).  The `_id`
guard reproduces the JavaScript falsiness test `!repository._id` (an
absent or empty id makes the record never refreshable).  `now` is
`Date.now()` in milliseconds. -/
def repositoryNeedsRefresh (now : Int) (repository : Repository) : Bool :=
  match repository.id with
  | none => false
  | some i =>
    if i = "" then false
    else if repository.status ≠ RepoStatus.ready then false
    else
      match repository.lastUpdate with
      | none => true
      | some t => t ≤ now - thirtyMinutesMs

/-- The `Partial<Repository>` extra fields that the orchestrator passes to
`updateRepositoryStatus`; a `none` field is absent from the `$set`. -/
structure AdditionalFields where
  feeds : Option Feeds := none
  error : Option String := none

/-- `updateRepositoryStatus` (`methods.ts` 22-34): a MongoDB `$set` of
`status`, a fresh `lastUpdate`, and whatever additional fields were
passed.  Fields not in the `$set` document keep their stored value. -/
def updateRepositoryStatus (r : Repository) (status : RepoStatus)
    (additionalFields : AdditionalFields) (now : Int) : Repository :=
  { r with
    status := status
    lastUpdate := some now
    feeds := additionalFields.feeds.getD r.feeds
    error :=
      match additionalFields.error with
      | some e => some e
      | none => r.error }

/-! ### RSS renderer (`methods.ts` 237-315) -/

/-- The raw feed-type key as it appears in URLs and channel text. -/
def feedTypeKey : FeedType → String
  | .issues => "issues"
  | .pullRequests => "pullRequests"
  | .discussions => "discussions"
  | .releases => "releases"

/-- `feedType.charAt(0).toUpperCase() + feedType.slice(1)`. -/
def capitalizedFeedType : FeedType → String
  | .issues => "Issues"
  | .pullRequests => "PullRequests"
  | .discussions => "Discussions"
  | .releases => "Releases"

/-- The normalized fields `processRSSItem` extracts for one item. -/
structure RSSItemFields where
  title : String
  link : String
  description : String
  date : String
deriving DecidableEq, Repr

/-- `processRSSItem` (`methods.ts` 237-273): per-feed-type extraction of
title, link, description and date from the raw GitHub item. -/
def processRSSItem (item : GitHubItem) (feedType : FeedType) : RSSItemFields :=
  match feedType with
  | .issues =>
    ⟨"Issue #" ++ toString item.number ++ ": " ++ jsInterp item.title,
      item.html_url,
      jsOrDefault item.body "No description provided",
      item.created_at⟩
  | .pullRequests =>
    ⟨"Pull Request #" ++ toString item.number ++ ": " ++ jsInterp item.title,
      item.html_url,
      jsOrDefault item.body "No description provided",
      item.created_at⟩
  | .discussions =>
    ⟨jsOrDefault item.title ("Discussion #" ++ toString item.number),
      item.html_url,
      jsOrDefault item.body "No description provided",
      item.created_at⟩
  | .releases =>
    ⟨"Release " ++ jsInterp item.tag_name ++ ": "
        ++ jsInterp (jsOrOpt item.name item.tag_name),
      item.html_url,
      jsOrDefault item.body "No release notes provided",
      jsOrDefault item.published_at item.created_at⟩

/-- The `<item>` template of `generateRSSWithGitHubData`. -/
def itemXml (feedType : FeedType) (item : GitHubItem) : String :=
  let f := processRSSItem item feedType
  let cleanedDescription := cleanDescription f.description
  "\n    <item>\n      <title><![CDATA[" ++ f.title
    ++ "]]></title>\n      <link>" ++ f.link
    ++ "</link>\n      <description><![CDATA[" ++ cleanedDescription
    ++ "]]></description>\n      <pubDate>" ++ jsDateToUTCString f.date
    ++ "</pubDate>\n      <guid>" ++ f.link
    ++ "</guid>\n    </item>"

/-- `generateRSSWithGitHubData` (`methods.ts` 286-315): the RSS 2.0
document template; `now` is the render-time `lastBuildDate` string. -/
def generateRSSWithGitHubData (repository : Repository) (feedType : FeedType)
    (githubData : List GitHubItem) (now : String) : String :=
  let title := repository.owner ++ "/" ++ repository.repo ++ " - "
    ++ capitalizedFeedType feedType
  let description := "RSS feed for " ++ feedTypeKey feedType ++ " in "
    ++ repository.owner ++ "/" ++ repository.repo
  let rssItems := String.join ((githubData.take 20).map (itemXml feedType))
  "<?xml version=\"1.0\" encoding=\"UTF-8\"?>\n<rss version=\"2.0\">\n  <channel>\n    <title><![CDATA["
    ++ title ++ "]]></title>\n    <link>" ++ repository.url
    ++ "</link>\n    <description><![CDATA[" ++ description
    ++ "]]></description>\n    <lastBuildDate>" ++ now
    ++ "</lastBuildDate>\n    <generator>GitHub RSS Generator v1.0</generator>\n    <language>en-us</language>"
    ++ rssItems ++ "\n  </channel>\n</rss>"

/-- The part of the rendered document before the items. -/
def rssChannelHeader (repository : Repository) (feedType : FeedType)
    (now : String) : String :=
  "<?xml version=\"1.0\" encoding=\"UTF-8\"?>\n<rss version=\"2.0\">\n  <channel>\n    <title><![CDATA["
    ++ (repository.owner ++ "/" ++ repository.repo ++ " - "
        ++ capitalizedFeedType feedType)
    ++ "]]></title>\n    <link>" ++ repository.url
    ++ "</link>\n    <description><![CDATA["
    ++ ("RSS feed for " ++ feedTypeKey feedType ++ " in "
        ++ repository.owner ++ "/" ++ repository.repo)
    ++ "]]></description>\n    <lastBuildDate>" ++ now
    ++ "</lastBuildDate>\n    <generator>GitHub RSS Generator v1.0</generator>\n    <language>en-us</language>"

/-- The part of the rendered document after the items. -/
def rssChannelFooter : String := "\n  </channel>\n</rss>"

/-! ### GitHub Data Gateway

Two variants exist in the source: `GitHubClient.fetchFeed`
(`src/unnamed/part_008` 80-103), which lets non-404 failures propagate,
and `GitHubService.fetchFeed` (`src/imports/api/clients/github.ts`
59-89), which wraps the same body in a try/catch that logs and returns an
empty list.  The HTTP exchange's outcome is passed in as an explicit
response value. -/

/-- The settings both GitHub clients load. -/
structure GitHubSettings where
  token : Option String
  apiUrl : String
  perPage : Nat

/-- An HTTP response as the fetch code observes it: status line, an
optional text body (`response.text()` can itself fail), and the parsed
JSON when it is an array (`none` models a non-array payload). -/
structure HttpResponse where
  status : Nat
  statusText : String
  body : Option String
  json : Option (List GitHubItem)
deriving Repr

/-- `response.ok`: status in the 200-299 range. -/
def HttpResponse.ok (r : HttpResponse) : Bool :=
  decide (200 ≤ r.status) && decide (r.status < 300)

/-- `buildEndpoint`: the REST endpoint per feed type; defined for all four
feed types, so the `?? null` fallback never fires. -/
def buildEndpoint (s : GitHubSettings) (owner repo : String)
    (feedType : FeedType) : Option String :=
  let base := s.apiUrl ++ "/repos/" ++ owner ++ "/" ++ repo
  let perPageParam := "per_page=" ++ toString s.perPage
  match feedType with
  | .issues =>
    some (base ++ "/issues?state=all&sort=created&direction=desc&" ++ perPageParam)
  | .pullRequests =>
    some (base ++ "/pulls?state=all&sort=created&direction=desc&" ++ perPageParam)
  | .releases => some (base ++ "/releases?" ++ perPageParam)
  | .discussions => some (base ++ "/discussions?" ++ perPageParam)

/-- The message of the `Error` thrown on a non-404 failure: it carries the
status code, the status text, and the response body when one was read. -/
def gitHubApiErrorMsg (resp : HttpResponse) : String :=
  "GitHub API error: " ++ toString resp.status ++ " " ++ resp.statusText
    ++ (match resp.body with
        | some b => " - " ++ b
        | none => "")

namespace GitHubClient

/-- `GitHubClient.fetchFeed` (`part_008` 80-103): 404 becomes an empty
list, any other non-success status throws, a non-array JSON payload
becomes an empty list. -/
def fetchFeed (s : GitHubSettings) (owner repo : String) (feedType : FeedType)
    (resp : HttpResponse) : Except String (List GitHubItem) :=
  match buildEndpoint s owner repo feedType with
  | none => .ok []
  | some _ =>
    if resp.ok = false then
      if resp.status = 404 then .ok []
      else .error (gitHubApiErrorMsg resp)
    else .ok (resp.json.getD [])

end GitHubClient

namespace GitHubService

/-- `GitHubService.fetchFeed` (`github.ts` 59-89): the same body as
`GitHubClient.fetchFeed`, but wrapped in a try/catch whose handler logs
the error and returns an empty list, so the function never fails. -/
def fetchFeed (s : GitHubSettings) (owner repo : String) (feedType : FeedType)
    (resp : HttpResponse) : List GitHubItem :=
  match buildEndpoint s owner repo feedType with
  | none => []
  | some _ =>
    match
      (if resp.ok = false then
        if resp.status = 404 then Except.ok []
        else Except.error (gitHubApiErrorMsg resp)
      else Except.ok (resp.json.getD ([] : List GitHubItem))) with
    | .ok data => data
    | .error _ => []

end GitHubService

/-! ### Artifact Publisher

Two variants exist: the module-level `uploadAllRSSToS3`
(`src/unnamed/part_004` 70-87) catches each feed type's failure and maps
it to `null`, while `S3Service.uploadAllRSSToS3`
(`src/imports/api/clients/s3.ts` 64-74) has no per-entry catch, so its
`Promise.all` rejects as soon as any upload fails.  The S3 `upload` call's
outcome is passed in as an oracle from feed-type key and content to either
a storage URL (`result.Location`) or an error message. -/

/-- `uploadRSSToS3` (identical body in `s3.ts` 38-62 and `part_004`
35-68): attempt the upload and rewrap any failure's message. -/
def uploadRSSToS3 (up : String → String → Except String String)
    (repositoryName feedType rssContent : String) : Except String String :=
  match up feedType rssContent with
  | .ok location => .ok location
  | .error e =>
    .error ("Failed to upload " ++ feedType ++ " RSS for " ++ repositoryName
      ++ " to S3: " ++ e)

namespace S3Module

/-- The module-level `uploadAllRSSToS3` (`part_004` 70-87): each entry has
its own try/catch, a failed upload becomes a `null` URL and the others
proceed. -/
def uploadAllRSSToS3 (up : String → String → Except String String)
    (repositoryName : String) (feeds : List (String × String)) :
    List (String × Option String) :=
  feeds.map (fun p =>
    match uploadRSSToS3 up repositoryName p.1 p.2 with
    | .ok url => (p.1, some url)
    | .error _ => (p.1, none))

end S3Module

/-- `Promise.all` over a list of settled outcomes: succeeds with the list
of values when every entry succeeded, otherwise rejects with the first
failure. -/
def promiseAll {α : Type} : List (Except String α) → Except String (List α)
  | [] => .ok []
  | .error e :: _ => .error e
  | .ok a :: rest => (promiseAll rest).map (fun l => a :: l)

namespace S3Service

/-- `S3Service.uploadAllRSSToS3` (`s3.ts` 64-74): the entries are mapped
without a catch and awaited with `Promise.all`, so one failing upload
rejects the whole call and no mapping is returned. -/
def uploadAllRSSToS3 (up : String → String → Except String String)
    (repositoryName : String) (feeds : List (String × String)) :
    Except String (List (String × Option String)) :=
  promiseAll (feeds.map (fun p =>
    (uploadRSSToS3 up repositoryName p.1 p.2).map (fun url => (p.1, some url))))

end S3Service

/-! ### Feed Generation Orchestrator (`methods.ts` 36-69 and 199-218)

`generateRSSFeeds` builds the four feed URLs up front, then loops over the
feed types fetching and rendering, catching per-feed-type failures (which
only omit that type's rendered content), and finally uploads the rendered
contents inside its own try/catch (whose outcome cannot affect the
returned value).  The GitHub fetch outcome per feed type is an oracle. -/

/-- The loop order of `generateRSSFeeds` (`methods.ts` line 48). -/
def feedGenOrder : List FeedType :=
  [.issues, .pullRequests, .releases, .discussions]

/-- The `Record<FeedType, string>` of feed URLs that `generateRSSFeeds`
builds unconditionally at its start (`methods.ts` 40-45). -/
structure FeedUrls where
  issues : String
  pullRequests : String
  discussions : String
  releases : String
deriving DecidableEq, Repr

/-- View the produced `Record<FeedType, string>` as a stored `feeds`
mapping: every entry present. -/
def FeedUrls.toFeeds (f : FeedUrls) : Feeds :=
  ⟨some f.issues, some f.pullRequests, some f.discussions, some f.releases⟩

/-- `generateRSSFeeds` (`methods.ts` 36-69).  Returns the unconditional
URL record together with the per-feed-type rendered contents that the
fetch loop accumulated (the contents are handed to the S3 upload, whose
failure is caught and ignored). -/
def generateRSSFeeds (baseUrl : String) (repository : Repository)
    (fetch : FeedType → Except String (List GitHubItem)) (now : String) :
    FeedUrls × List (FeedType × String) :=
  let repoPath := repository.owner ++ "-" ++ repository.repo
  let feeds : FeedUrls :=
    ⟨baseUrl ++ "api/rss/" ++ repoPath ++ "/issues.xml",
      baseUrl ++ "api/rss/" ++ repoPath ++ "/pullRequests.xml",
      baseUrl ++ "api/rss/" ++ repoPath ++ "/discussions.xml",
      baseUrl ++ "api/rss/" ++ repoPath ++ "/releases.xml"⟩
  let rssContents := feedGenOrder.filterMap (fun feedType =>
    match fetch feedType with
    | .ok githubData =>
      some (feedType, generateRSSWithGitHubData repository feedType githubData now)
    | .error _ => none)
  (feeds, rssContents)

/-- `generateRSSAndUpdateRepository` (`methods.ts` 199-218), success path:
`generating` is written, the feeds are generated, and the record is
committed `ready` with the produced URL record.  (`generateRSSFeeds`
cannot throw: fetch and upload failures are both caught inside it, so the
`error` commit branch is unreachable once the record was found.)  `now1`
and `now2` are the two `new Date()` timestamps of the status writes. -/
def generateRSSAndUpdateRepository (repository : Repository)
    (baseUrl : String) (fetch : FeedType → Except String (List GitHubItem))
    (nowStr : String) (now1 now2 : Int) :
    Repository × FeedUrls × List (FeedType × String) :=
  let r1 := updateRepositoryStatus repository .generating {} now1
  let (feeds, contents) := generateRSSFeeds baseUrl repository fetch nowStr
  let r2 := updateRepositoryStatus r1 .ready { feeds := some feeds.toFeeds } now2
  (r2, feeds, contents)

/-! ### Helpers and concrete fixtures used by the verification -/

/-- Whether an `Except` value is a success. -/
def isOkB {ε α : Type} : Except ε α → Bool
  | .ok _ => true
  | .error _ => false

/-- Number of (possibly overlapping) occurrences of `pat` in a character
list, counting one per starting position. -/
def countSub (pat : List Char) : List Char → Nat
  | [] => 0
  | c :: rest => (if pat.isPrefixOf (c :: rest) then 1 else 0) + countSub pat rest

/-- The example input of the spec's description-cleaning property. -/
def exampleDescription : String :=
  "See `code` and [link](http://x) and ```block```"

/-- Default GitHub client settings (no token, default API URL and page size). -/
def sampleSettings : GitHubSettings := ⟨none, "https://api.github.com", 50⟩

/-- A 404 response. -/
def resp404 : HttpResponse := ⟨404, "Not Found", some "nf", none⟩

/-- A non-404 failure response. -/
def resp500 : HttpResponse := ⟨500, "Internal Server Error", some "oops", none⟩

/-- A pending repository record for `octocat/hello-world`. -/
def octoRepo : Repository :=
  ⟨some "id1", "https://github.com/octocat/hello-world", "octocat",
    "hello-world", 0, none, emptyFeeds, .pending, none⟩

/-- A record currently in the `error` state with a stored error message. -/
def errorStateRepo : Repository :=
  ⟨some "id3", "https://github.com/octocat/hello-world", "octocat",
    "hello-world", 0, some 0, emptyFeeds, .error, some "boom"⟩

/-- A `ready` record that was never persisted (no `_id`), with no
`lastUpdate`. -/
def ghostRepo : Repository :=
  ⟨none, "https://github.com/a/b", "a", "b", 0, none, emptyFeeds, .ready, none⟩

/-- A persisted `ready` record last updated 31 minutes before `10 ^ 8`. -/
def staleRepo : Repository :=
  ⟨some "id2", "https://github.com/a/b", "a", "b", 0,
    some (100000000 - 31 * 60 * 1000), emptyFeeds, .ready, none⟩

/-- A persisted `ready` record last updated 29 minutes before `10 ^ 8`. -/
def freshRepo : Repository :=
  ⟨some "id2", "https://github.com/a/b", "a", "b", 0,
    some (100000000 - 29 * 60 * 1000), emptyFeeds, .ready, none⟩

/-- A render-time timestamp string. -/
def sampleNow : String := "Mon, 01 Jan 2024 00:00:00 GMT"

/-- A fetch oracle that fails with a gateway error for `releases` only. -/
def releasesFailFetch : FeedType → Except String (List GitHubItem) :=
  fun feedType =>
    match feedType with
    | .releases => .error "GitHub API error: 500 Internal Server Error - oops"
    | _ => .ok []

/-- An upload oracle that fails for the `releases` key only. -/
def releasesFailUpload : String → String → Except String String :=
  fun feedType _content =>
    if feedType = "releases" then .error "network down"
    else .ok ("https://bucket.s3.amazonaws.com/rss/a-b/" ++ feedType ++ ".xml")

/-- Upload batches used to exercise the publisher variants. -/
def feedsAllOk : List (String × String) :=
  [("issues", "<a>"), ("pullRequests", "<b>")]

def feedsMixed : List (String × String) :=
  [("issues", "<a>"), ("releases", "<b>")]

end GithubRss

namespace GithubRss

/-! ## Claim theorems -/

/-- C3 counterexample: on the spec's own example input, `cleanDescription`
appends a trailing `"..."` (because the cleaned string is shorter than the
input, even though no truncation at 500 characters happened), so the
output is not the claimed `"See code and link and [code block]"`. -/
theorem cleanDescription_example_counterexample :
    cleanDescription exampleDescription = "See code and link and [code block]..."
      ∧ cleanDescription exampleDescription ≠ "See code and link and [code block]" := by
  constructor
  · rfl
  · decide

set_option maxRecDepth 10000 in
/-- C3 (amended): `cleanDescription` strips fenced code blocks, inline
code, markdown links and the characters `#`, `*`, `_`, truncates to 500
characters, and appends `"..."` whenever the cleaned string is shorter
than the original input — that is, whenever any stripping or truncation
shortened it, not only on truncation.  The example input therefore cleans
to `"See code and link and [code block]..."`; an input needing no
cleaning is returned unchanged; stripping alone triggers the dots; a
600-character input is truncated to 500 plus dots; and every output has at
most 503 characters. -/
theorem cleanDescription_amended :
    (∀ d : String, (cleanDescription d).length ≤ 503)
      ∧ cleanDescription exampleDescription = "See code and link and [code block]..."
      ∧ cleanDescription "a`b`c" = "abc..."
      ∧ cleanDescription "hello" = "hello"
      ∧ cleanDescription (String.mk (List.replicate 600 'a'))
          = String.mk (List.replicate 500 'a') ++ "..." := by
  refine ⟨?_, rfl, rfl, rfl, ?_⟩
  · intro d
    have htake :
        (String.mk ((stripMarkers (stripLinks (stripInlineCode
          (stripCodeBlocks d.data)))).take 500)).length ≤ 500 := by
      show ((stripMarkers (stripLinks (stripInlineCode
        (stripCodeBlocks d.data)))).take 500).length ≤ 500
      exact List.length_take_le _ _
    show (if (String.mk ((stripMarkers (stripLinks (stripInlineCode
        (stripCodeBlocks d.data)))).take 500)).length < d.length
      then String.mk ((stripMarkers (stripLinks (stripInlineCode
        (stripCodeBlocks d.data)))).take 500) ++ "..."
      else String.mk ((stripMarkers (stripLinks (stripInlineCode
        (stripCodeBlocks d.data)))).take 500)).length ≤ 503
    split
    · rw [String.length_append]
      have h3 : ("..." : String).length = 3 := rfl
      omega
    · exact le_trans htake (by omega)
  · rfl

/-- C4 counterexample: a record in the `error` state with message "boom"
goes through a fully successful generation pass; the committed record has
status `ready` but the stale error message is still present, violating
both "error present only when status is error" and "error cleared on the
successful commit". -/
theorem commit_keeps_error_counterexample :
    ((generateRSSAndUpdateRepository errorStateRepo "http://localhost/"
        releasesFailFetch sampleNow 1 2).1).status = RepoStatus.ready
      ∧ ((generateRSSAndUpdateRepository errorStateRepo "http://localhost/"
        releasesFailFetch sampleNow 1 2).1).error = some "boom" := by
  exact ⟨rfl, rfl⟩

/-- C4 (amended): the successful commit transition (`generating` to
`ready`) sets the feeds mapping to the produced URL record and refreshes
`lastUpdate`, but leaves the `error` field untouched (the `$set` document
contains only `status`, `lastUpdate` and `feeds`), so a stale error
message can persist alongside `status = ready`. -/
theorem commit_preserves_error_amended :
    ∀ (r : Repository) (baseUrl : String)
      (fetch : FeedType → Except String (List GitHubItem))
      (nowStr : String) (now1 now2 : Int),
      ((generateRSSAndUpdateRepository r baseUrl fetch nowStr now1 now2).1).status
          = RepoStatus.ready
        ∧ ((generateRSSAndUpdateRepository r baseUrl fetch nowStr now1 now2).1).lastUpdate
          = some now2
        ∧ ((generateRSSAndUpdateRepository r baseUrl fetch nowStr now1 now2).1).feeds
          = (generateRSSFeeds baseUrl r fetch nowStr).1.toFeeds
        ∧ ((generateRSSAndUpdateRepository r baseUrl fetch nowStr now1 now2).1).error
          = r.error := by
  intro r baseUrl fetch nowStr now1 now2
  exact ⟨rfl, rfl, rfl, rfl⟩

/-- C5 counterexample: a record with `status = ready` and absent
`lastUpdate` but no `_id` is judged not refreshable — the JavaScript
falsiness guard `!repository._id` returns `false` before the staleness
test, so the claim's "returns true for a record with status ready whose
lastUpdate is absent" fails on it. -/
theorem repositoryNeedsRefresh_counterexample :
    ghostRepo.status = RepoStatus.ready ∧ ghostRepo.lastUpdate = none
      ∧ repositoryNeedsRefresh 100000000 ghostRepo = false := by
  decide

/-- C5 (amended): for a persisted record (one whose `_id` is present and
non-empty), `repositoryNeedsRefresh` returns true when status is `ready`
and `lastUpdate` is absent or 31 minutes before now; it returns false
whenever `lastUpdate` is 29 minutes before now; and a record whose status
is not `ready` is never judged refreshable. -/
theorem repositoryNeedsRefresh_amended :
    (∀ (now : Int) (r : Repository) (i : String),
        r.id = some i → i ≠ "" → r.status = RepoStatus.ready →
        (r.lastUpdate = none ∨ r.lastUpdate = some (now - 31 * 60 * 1000)) →
        repositoryNeedsRefresh now r = true)
      ∧ (∀ (now : Int) (r : Repository),
        r.lastUpdate = some (now - 29 * 60 * 1000) →
        repositoryNeedsRefresh now r = false)
      ∧ (∀ (now : Int) (r : Repository),
        r.status ≠ RepoStatus.ready → repositoryNeedsRefresh now r = false) := by
  refine ⟨?_, ?_, ?_⟩
  · intro now r i hid hne hready hlast
    unfold repositoryNeedsRefresh
    rw [hid]
    simp only [hne, if_false, hready]
    cases hlast with
    | inl h => simp [h]
    | inr h =>
      simp [h, thirtyMinutesMs]
      omega
  · intro now r hlast
    unfold repositoryNeedsRefresh
    cases hid : r.id with
    | none => rfl
    | some i =>
      by_cases hne : i = ""
      · simp [hne]
      · by_cases hready : r.status = RepoStatus.ready
        · simp [hne, hready, hlast, thirtyMinutesMs]
          omega
        · simp [hne, hready]
  · intro now r hready
    unfold repositoryNeedsRefresh
    cases hid : r.id with
    | none => rfl
    | some i =>
      by_cases hne : i = ""
      · simp [hne]
      · simp [hne, hready]

/-- C5 amended witness at concrete records: the 31-minute-old persisted
ready record is stale, the 29-minute-old one is fresh. -/
theorem repositoryNeedsRefresh_amended_witness :
    repositoryNeedsRefresh 100000000 staleRepo = true
      ∧ repositoryNeedsRefresh 100000000 freshRepo = false :=
  ⟨repositoryNeedsRefresh_amended.1 100000000 staleRepo "id2" rfl
      (by decide) rfl (Or.inr rfl),
    repositoryNeedsRefresh_amended.2.1 100000000 freshRepo rfl⟩

/-- C1 counterexample: with a fetch oracle failing for `releases` only
(and succeeding for the other three types), the committed record reaches
`ready` but its feeds mapping has a NON-null `releases` entry — the URL
record is built unconditionally before the fetch loop, so the claimed
null/absent `releases` entry never happens. -/
theorem partial_failure_releases_counterexample :
    isOkB (releasesFailFetch FeedType.releases) = false
      ∧ isOkB (releasesFailFetch FeedType.issues) = true
      ∧ isOkB (releasesFailFetch FeedType.pullRequests) = true
      ∧ isOkB (releasesFailFetch FeedType.discussions) = true
      ∧ ((generateRSSAndUpdateRepository octoRepo "http://localhost/"
          releasesFailFetch sampleNow 1 2).1).status = RepoStatus.ready
      ∧ ((generateRSSAndUpdateRepository octoRepo "http://localhost/"
          releasesFailFetch sampleNow 1 2).1).feeds.releases
        = some "http://localhost/api/rss/octocat-hello-world/releases.xml" := by
  exact ⟨rfl, rfl, rfl, rfl, rfl, rfl⟩

/-- C1 (amended): if the fetch fails for `releases` only, the other three
feed types are still fetched and rendered (the per-type catch isolates the
failure: the rendered-content list holds exactly `issues`, `pullRequests`
and `discussions`, in loop order), the commit still reaches `ready`, and
the committed feeds mapping has non-null entries for all FOUR feed types
including `releases` — the URLs are computed up front independently of
fetch success; only the uploaded content set omits the failed type. -/
theorem generateRSS_partial_failure_amended :
    ∀ (r : Repository) (baseUrl nowStr : String)
      (fetch : FeedType → Except String (List GitHubItem)) (e : String)
      (now1 now2 : Int),
      fetch FeedType.releases = .error e →
      isOkB (fetch FeedType.issues) = true →
      isOkB (fetch FeedType.pullRequests) = true →
      isOkB (fetch FeedType.discussions) = true →
      ((generateRSSAndUpdateRepository r baseUrl fetch nowStr now1 now2).1.status
          = RepoStatus.ready
        ∧ (generateRSSAndUpdateRepository r baseUrl fetch nowStr now1 now2).1.feeds.issues.isSome
          = true
        ∧ (generateRSSAndUpdateRepository r baseUrl fetch nowStr now1 now2).1.feeds.pullRequests.isSome
          = true
        ∧ (generateRSSAndUpdateRepository r baseUrl fetch nowStr now1 now2).1.feeds.discussions.isSome
          = true
        ∧ (generateRSSAndUpdateRepository r baseUrl fetch nowStr now1 now2).1.feeds.releases.isSome
          = true
        ∧ ((generateRSSAndUpdateRepository r baseUrl fetch nowStr now1 now2).2.2.map Prod.fst)
          = [FeedType.issues, FeedType.pullRequests, FeedType.discussions]) := by
  intro r baseUrl nowStr fetch e now1 now2 hrel hiss hpr hdisc
  cases hi : fetch FeedType.issues with
  | error e1 => rw [hi] at hiss; simp [isOkB] at hiss
  | ok di =>
    cases hp : fetch FeedType.pullRequests with
    | error e2 => rw [hp] at hpr; simp [isOkB] at hpr
    | ok dp =>
      cases hd : fetch FeedType.discussions with
      | error e3 => rw [hd] at hdisc; simp [isOkB] at hdisc
      | ok dd =>
        refine ⟨rfl, rfl, rfl, rfl, rfl, ?_⟩
        show ((generateRSSFeeds baseUrl r fetch nowStr).2.map Prod.fst) = _
        simp [generateRSSFeeds, feedGenOrder, hi, hp, hd, hrel]

/-- C1 amended witness: the amended property instantiated at the concrete
repository and the releases-only-failing oracle. -/
theorem generateRSS_partial_failure_amended_witness :
    ((generateRSSAndUpdateRepository octoRepo "http://localhost/"
        releasesFailFetch sampleNow 1 2).1.status = RepoStatus.ready
      ∧ (generateRSSAndUpdateRepository octoRepo "http://localhost/"
        releasesFailFetch sampleNow 1 2).1.feeds.issues.isSome = true
      ∧ (generateRSSAndUpdateRepository octoRepo "http://localhost/"
        releasesFailFetch sampleNow 1 2).1.feeds.pullRequests.isSome = true
      ∧ (generateRSSAndUpdateRepository octoRepo "http://localhost/"
        releasesFailFetch sampleNow 1 2).1.feeds.discussions.isSome = true
      ∧ (generateRSSAndUpdateRepository octoRepo "http://localhost/"
        releasesFailFetch sampleNow 1 2).1.feeds.releases.isSome = true
      ∧ ((generateRSSAndUpdateRepository octoRepo "http://localhost/"
        releasesFailFetch sampleNow 1 2).2.2.map Prod.fst)
        = [FeedType.issues, FeedType.pullRequests, FeedType.discussions]) :=
  generateRSS_partial_failure_amended octoRepo "http://localhost/" sampleNow
    releasesFailFetch "GitHub API error: 500 Internal Server Error - oops"
    1 2 rfl rfl rfl rfl

/-- The per-entry result of the module-level publisher equals the raw
upload oracle's outcome with failures mapped to `none` (the message
rewrapping in `uploadRSSToS3` does not change success or the URL). -/
theorem uploadEntry_eq (up : String → String → Except String String)
    (name feedType content : String) :
    (match uploadRSSToS3 up name feedType content with
      | .ok url => (feedType, some url)
      | .error _ => ((feedType, none) : String × Option String))
      = (feedType,
          match up feedType content with
          | .ok u => some u
          | .error _ => none) := by
  unfold uploadRSSToS3
  cases up feedType content <;> rfl

/-- C2 counterexample: a batch whose `issues` upload succeeds and whose
`releases` upload fails makes `S3Service.uploadAllRSSToS3` reject as a
whole — it returns an error, not a mapping with `null` exactly for the
failed feed type, so the claimed isolate-and-continue result does not hold
for that publish operation. -/
theorem uploadAll_service_counterexample :
    isOkB (releasesFailUpload "issues" "<a>") = true
      ∧ isOkB (S3Service.uploadAllRSSToS3 releasesFailUpload "a-b" feedsMixed) = false := by
  decide

/-- C2 (amended): the module-level `uploadAllRSSToS3` (part_004) uploads
each feed type independently and returns the full mapping with `null`
exactly for the feed types whose upload failed; the `S3Service` method
variant instead returns that same mapping only when every upload
succeeded, and rejects with an error (returning no mapping at all) as
soon as any upload fails. -/
theorem uploadAll_amended :
    ∀ (up : String → String → Except String String) (name : String)
      (feeds : List (String × String)),
      (S3Module.uploadAllRSSToS3 up name feeds
          = feeds.map (fun p => (p.1,
              match up p.1 p.2 with
              | .ok u => some u
              | .error _ => none)))
        ∧ (feeds.all (fun p => isOkB (up p.1 p.2)) = true →
            S3Service.uploadAllRSSToS3 up name feeds
              = .ok (S3Module.uploadAllRSSToS3 up name feeds))
        ∧ (feeds.all (fun p => isOkB (up p.1 p.2)) = false →
            isOkB (S3Service.uploadAllRSSToS3 up name feeds) = false) := by
  intro up name feeds
  refine ⟨?_, ?_, ?_⟩
  · unfold S3Module.uploadAllRSSToS3
    exact List.map_congr_left (fun p _ => uploadEntry_eq up name p.1 p.2)
  · induction feeds with
    | nil => intro _; rfl
    | cons p rest ih =>
      intro hall
      simp only [List.all_cons, Bool.and_eq_true] at hall
      obtain ⟨hp, hrest⟩ := hall
      cases hup : up p.1 p.2 with
      | error e => rw [hup] at hp; simp [isOkB] at hp
      | ok u =>
        have hfirst : uploadRSSToS3 up name p.1 p.2 = .ok u := by
          unfold uploadRSSToS3; rw [hup]
        simp only [S3Service.uploadAllRSSToS3, S3Module.uploadAllRSSToS3,
          List.map_cons, hfirst, Except.map, promiseAll] at ih ⊢
        rw [ih hrest]
  · induction feeds with
    | nil => intro h; simp [List.all_nil] at h
    | cons p rest ih =>
      intro hall
      cases hup : up p.1 p.2 with
      | error e =>
        have hfirst : uploadRSSToS3 up name p.1 p.2
            = .error ("Failed to upload " ++ p.1 ++ " RSS for " ++ name
              ++ " to S3: " ++ e) := by
          unfold uploadRSSToS3; rw [hup]
        simp [S3Service.uploadAllRSSToS3, hfirst, Except.map, promiseAll, isOkB]
      | ok u =>
        simp only [List.all_cons, hup, isOkB, Bool.true_and] at hall
        have hfirst : uploadRSSToS3 up name p.1 p.2 = .ok u := by
          unfold uploadRSSToS3; rw [hup]
        have hrest := ih hall
        unfold S3Service.uploadAllRSSToS3 at hrest ⊢
        rw [List.map_cons, hfirst]
        show isOkB ((promiseAll (rest.map (fun p =>
            Except.map (fun url => (p.1, some url))
              (uploadRSSToS3 up name p.1 p.2)))).map
          (fun l => (p.1, some u) :: l)) = false
        cases hres : promiseAll (rest.map (fun p =>
            Except.map (fun url => (p.1, some url))
              (uploadRSSToS3 up name p.1 p.2))) with
        | error e2 => rfl
        | ok l =>
          rw [hres] at hrest
          simp [isOkB] at hrest

/-- C2 amended witness: the amended property instantiated at a concrete
all-successful batch and a concrete partially-failing batch. -/
theorem uploadAll_amended_witness :
    (S3Service.uploadAllRSSToS3 releasesFailUpload "a-b" feedsAllOk
        = .ok (S3Module.uploadAllRSSToS3 releasesFailUpload "a-b" feedsAllOk))
      ∧ isOkB (S3Service.uploadAllRSSToS3 releasesFailUpload "a-b" feedsMixed) = false :=
  ⟨(uploadAll_amended releasesFailUpload "a-b" feedsAllOk).2.1 (by decide),
    (uploadAll_amended releasesFailUpload "a-b" feedsMixed).2.2 (by decide)⟩

/-- C6 counterexample: on a 500 response, `GitHubService.fetchFeed`
(`github.ts`) returns a successful empty list — the thrown gateway error
is caught by the function's own try/catch and converted, so it does not
propagate to the caller. -/
theorem fetchFeed_service_swallows_counterexample :
    resp500.status ≠ 404
      ∧ resp500.ok = false
      ∧ GitHubService.fetchFeed sampleSettings "octocat" "hello-world"
          FeedType.issues resp500 = [] := by
  decide

/-- C6 (amended): on a non-success, non-404 response,
`GitHubClient.fetchFeed` (part_008) fails with the error message carrying
the status code, status text and response body, and this error propagates
to its caller; `GitHubService.fetchFeed` (github.ts) builds the same error
but catches it internally and returns a successful empty list instead. -/
theorem fetchFeed_error_amended :
    ∀ (s : GitHubSettings) (owner repo : String) (feedType : FeedType)
      (resp : HttpResponse),
      resp.ok = false → resp.status ≠ 404 →
      GitHubClient.fetchFeed s owner repo feedType resp
          = .error (gitHubApiErrorMsg resp)
        ∧ GitHubService.fetchFeed s owner repo feedType resp = [] := by
  intro s owner repo feedType resp hok h404
  cases feedType <;>
    simp [GitHubClient.fetchFeed, GitHubService.fetchFeed, buildEndpoint,
      hok, h404]

/-- C6 amended witness at the concrete 500 response. -/
theorem fetchFeed_error_amended_witness :
    GitHubClient.fetchFeed sampleSettings "octocat" "hello-world"
        FeedType.issues resp500 = .error (gitHubApiErrorMsg resp500)
      ∧ GitHubService.fetchFeed sampleSettings "octocat" "hello-world"
        FeedType.issues resp500 = [] :=
  fetchFeed_error_amended sampleSettings "octocat" "hello-world"
    FeedType.issues resp500 (by decide) (by decide)

set_option maxRecDepth 20000 in
/-- C7: a 404 response makes both fetch variants return an empty list
rather than an error, and rendering an empty item list (for any of the
four feed types, at the concrete repository identity) yields a well-formed
RSS document: it starts with the XML declaration, contains exactly one
opening and one closing channel tag, and contains zero `<item>`
elements. -/
theorem fetchFeed_404_and_empty_render :
    (∀ (s : GitHubSettings) (owner repo : String) (feedType : FeedType)
      (resp : HttpResponse),
      resp.status = 404 →
      GitHubClient.fetchFeed s owner repo feedType resp = .ok []
        ∧ GitHubService.fetchFeed s owner repo feedType resp = [])
      ∧ (∀ feedType : FeedType,
          countSub "<item>".data
              (generateRSSWithGitHubData octoRepo feedType [] sampleNow).data = 0
            ∧ countSub "<channel>".data
              (generateRSSWithGitHubData octoRepo feedType [] sampleNow).data = 1
            ∧ countSub "</channel>".data
              (generateRSSWithGitHubData octoRepo feedType [] sampleNow).data = 1
            ∧ "<?xml version=\"1.0\" encoding=\"UTF-8\"?>".data.isPrefixOf
              (generateRSSWithGitHubData octoRepo feedType [] sampleNow).data
              = true) := by
  constructor
  · intro s owner repo feedType resp h404
    have hok : resp.ok = false := by
      unfold HttpResponse.ok
      rw [h404]
      decide
    cases feedType <;>
      simp [GitHubClient.fetchFeed, GitHubService.fetchFeed, buildEndpoint,
        hok, h404]
  · intro feedType
    cases feedType <;> exact ⟨by decide, by decide, by decide, by decide⟩

/-- C7 witness at the concrete 404 response. -/
theorem fetchFeed_404_witness :
    GitHubClient.fetchFeed sampleSettings "octocat" "hello-world"
        FeedType.discussions resp404 = .ok []
      ∧ GitHubService.fetchFeed sampleSettings "octocat" "hello-world"
        FeedType.discussions resp404 = [] :=
  fetchFeed_404_and_empty_render.1 sampleSettings "octocat" "hello-world"
    FeedType.discussions resp404 rfl

/-- C9: the rendered document decomposes as channel header, the
concatenation of the item templates of the first 20 input items in input
order, and the channel footer; the number of rendered items is exactly
`min n 20`; and every item's template contains `<guid>link</guid>` where
`link` is that item's `html_url` — the guid is the item's link, not a
synthetic identifier. -/
theorem render_cap_and_guid :
    ∀ (r : Repository) (feedType : FeedType) (l : List GitHubItem)
      (now : String),
      generateRSSWithGitHubData r feedType l now
          = rssChannelHeader r feedType now
            ++ String.join ((l.take 20).map (itemXml feedType))
            ++ rssChannelFooter
        ∧ ((l.take 20).map (itemXml feedType)).length = min l.length 20
        ∧ ∀ item : GitHubItem,
            ("<guid>" ++ (processRSSItem item feedType).link ++ "</guid>").data
              <:+: (itemXml feedType item).data := by
  intro r feedType l now
  refine ⟨rfl, ?_, ?_⟩
  · simp only [List.length_map, List.length_take]
    omega
  · intro item
    refine ⟨("\n    <item>\n      <title><![CDATA["
        ++ (processRSSItem item feedType).title ++ "]]></title>\n      <link>"
        ++ (processRSSItem item feedType).link
        ++ "</link>\n      <description><![CDATA["
        ++ cleanDescription (processRSSItem item feedType).description
        ++ "]]></description>\n      <pubDate>"
        ++ jsDateToUTCString (processRSSItem item feedType).date
        ++ "</pubDate>\n      ").data, "\n    </item>".data, ?_⟩
    have h1 : ("</pubDate>\n      <guid>" : String).data
        = ("</pubDate>\n      " : String).data ++ ("<guid>" : String).data := by
      decide
    have h2 : ("</guid>\n    </item>" : String).data
        = ("</guid>" : String).data ++ ("\n    </item>" : String).data := by
      decide
    simp only [itemXml, String.data_append, h1, h2, List.append_assoc,
      List.cons_append, List.nil_append]

/-! Supporting lemmas about the URL-regex scanner, shared by the two
claims about `parseGitHubUrl`. -/

theorem stripPrefixChars_append (p x : List Char) :
    stripPrefixChars p (p ++ x) = some x := by
  induction p with
  | nil => rfl
  | cons c ps ih => simp [stripPrefixChars, ih]

theorem takeWhile_append_sat (p : Char → Bool) (o : List Char) (d : Char)
    (t : List Char) (ho : ∀ c ∈ o, p c = true) (hd : p d = false) :
    (o ++ d :: t).takeWhile p = o := by
  induction o with
  | nil => simp [List.takeWhile_cons, hd]
  | cons c os ih =>
    have hc : p c = true := ho c (by simp)
    simp only [List.cons_append, List.takeWhile_cons, hc, if_true]
    rw [ih (fun c hc2 => ho c (by simp [hc2]))]

theorem dropWhile_append_sat (p : Char → Bool) (o : List Char) (d : Char)
    (t : List Char) (ho : ∀ c ∈ o, p c = true) (hd : p d = false) :
    (o ++ d :: t).dropWhile p = d :: t := by
  induction o with
  | nil => simp [List.dropWhile_cons, hd]
  | cons c os ih =>
    have hc : p c = true := ho c (by simp)
    simp only [List.cons_append, List.dropWhile_cons, hc, if_true]
    exact ih (fun c hc2 => ho c (by simp [hc2]))

theorem takeWhile_eq_self_sat (p : Char → Bool) (l : List Char)
    (h : ∀ c ∈ l, p c = true) : l.takeWhile p = l := by
  induction l with
  | nil => rfl
  | cons c cs ih =>
    simp only [List.takeWhile_cons, h c (by simp), if_true]
    rw [ih (fun c hc => h c (by simp [hc]))]

theorem tryMatchAt_exact (o r : List Char) (ho : o ≠ [])
    (ho2 : ∀ c ∈ o, c ≠ '/') (hr : r ≠ []) (hr2 : ∀ c ∈ r, c ≠ '/') :
    tryMatchAt (ghMarker ++ (o ++ '/' :: r)) = some (o, r) := by
  have ho2' : ∀ c ∈ o, isNotSlash c = true := by
    intro c hc; simp [isNotSlash]; exact ho2 c hc
  have hr2' : ∀ c ∈ r, isNotSlash c = true := by
    intro c hc; simp [isNotSlash]; exact hr2 c hc
  have hslash : isNotSlash '/' = false := by decide
  unfold tryMatchAt
  rw [stripPrefixChars_append]
  dsimp only
  rw [takeWhile_append_sat isNotSlash o '/' r ho2' hslash]
  rw [if_neg ho]
  rw [dropWhile_append_sat isNotSlash o '/' r ho2' hslash]
  dsimp only
  rw [takeWhile_eq_self_sat isNotSlash r hr2']
  rw [if_neg hr]

theorem tryMatchAt_cons_ne (c : Char) (l : List Char) (h : c ≠ 'g') :
    tryMatchAt (c :: l) = none := by
  have hm : stripPrefixChars ghMarker (c :: l) = none := by
    have hg : ghMarker = 'g' :: "ithub.com/".data := by decide
    rw [hg]
    simp only [stripPrefixChars]
    rw [if_neg h]
  unfold tryMatchAt
  rw [hm]

theorem findGitHubMatch_cons_ne (c : Char) (l : List Char) (h : c ≠ 'g') :
    findGitHubMatch (c :: l) = findGitHubMatch l := by
  simp [findGitHubMatch, tryMatchAt_cons_ne c l h]

theorem findGitHubMatch_cons_some (c : Char) (l : List Char)
    (pr : List Char × List Char) (h : tryMatchAt (c :: l) = some pr) :
    findGitHubMatch (c :: l) = some pr := by
  simp [findGitHubMatch, h]

theorem findGitHubMatch_marker (o r : List Char) (ho : o ≠ [])
    (ho2 : ∀ c ∈ o, c ≠ '/') (hr : r ≠ []) (hr2 : ∀ c ∈ r, c ≠ '/') :
    findGitHubMatch (ghMarker ++ (o ++ '/' :: r)) = some (o, r) := by
  have hg : ghMarker ++ (o ++ '/' :: r)
      = 'g' :: ("ithub.com/".data ++ (o ++ '/' :: r)) := by
    have h : ghMarker = 'g' :: "ithub.com/".data := by decide
    rw [h, List.cons_append]
  rw [hg]
  apply findGitHubMatch_cons_some
  rw [← hg]
  exact tryMatchAt_exact o r ho ho2 hr hr2

theorem findGitHubMatch_https (X : List Char) :
    findGitHubMatch (("https://" : String).data ++ X) = findGitHubMatch X := by
  have h : ("https://" : String).data
      = 'h' :: 't' :: 't' :: 'p' :: 's' :: ':' :: '/' :: '/' :: [] := by decide
  rw [h]
  simp only [List.cons_append, List.nil_append]
  rw [findGitHubMatch_cons_ne 'h' _ (by decide)]
  rw [findGitHubMatch_cons_ne 't' _ (by decide)]
  rw [findGitHubMatch_cons_ne 't' _ (by decide)]
  rw [findGitHubMatch_cons_ne 'p' _ (by decide)]
  rw [findGitHubMatch_cons_ne 's' _ (by decide)]
  rw [findGitHubMatch_cons_ne ':' _ (by decide)]
  rw [findGitHubMatch_cons_ne '/' _ (by decide)]
  rw [findGitHubMatch_cons_ne '/' _ (by decide)]

theorem tryMatchAt_props (l o r : List Char)
    (h : tryMatchAt l = some (o, r)) :
    o ≠ [] ∧ r ≠ [] ∧ (∀ c ∈ o, c ≠ '/') ∧ (∀ c ∈ r, c ≠ '/') := by
  unfold tryMatchAt at h
  cases hs : stripPrefixChars ghMarker l with
  | none => rw [hs] at h; simp at h
  | some t =>
    rw [hs] at h
    dsimp only at h
    by_cases ho : t.takeWhile isNotSlash = []
    · rw [if_pos ho] at h; simp at h
    · rw [if_neg ho] at h
      cases hd : t.dropWhile isNotSlash with
      | nil => rw [hd] at h; simp at h
      | cons x t3 =>
        rw [hd] at h
        dsimp only at h
        by_cases hr : t3.takeWhile isNotSlash = []
        · rw [if_pos hr] at h; simp at h
        · rw [if_neg hr] at h
          simp only [Option.some.injEq, Prod.mk.injEq] at h
          obtain ⟨h1, h2⟩ := h
          subst h1
          subst h2
          refine ⟨ho, hr, ?_, ?_⟩
          · intro c hc
            have := List.mem_takeWhile_imp hc
            simpa [isNotSlash] using this
          · intro c hc
            have := List.mem_takeWhile_imp hc
            simpa [isNotSlash] using this

theorem findGitHubMatch_props (l : List Char) :
    ∀ o r, findGitHubMatch l = some (o, r) →
      o ≠ [] ∧ r ≠ [] ∧ (∀ c ∈ o, c ≠ '/') ∧ (∀ c ∈ r, c ≠ '/') := by
  induction l with
  | nil => intro o r h; simp [findGitHubMatch] at h
  | cons c rest ih =>
    intro o r h
    cases hm : tryMatchAt (c :: rest) with
    | some pr =>
      rw [findGitHubMatch_cons_some c rest pr hm] at h
      simp only [Option.some.injEq] at h
      subst h
      exact tryMatchAt_props (c :: rest) o r hm
    | none =>
      have heq : findGitHubMatch (c :: rest) = findGitHubMatch rest := by
        simp [findGitHubMatch, hm]
      rw [heq] at h
      exact ih o r h

theorem findGitHubMatch_append_isSome (p : List Char) (t : List Char)
    (h : tryMatchAt t ≠ none) : (findGitHubMatch (p ++ t)).isSome = true := by
  induction p with
  | nil =>
    simp only [List.nil_append]
    cases t with
    | nil => exact absurd rfl h
    | cons c rest =>
      cases hm : tryMatchAt (c :: rest) with
      | none => exact absurd hm h
      | some pr => rw [findGitHubMatch_cons_some c rest pr hm]; rfl
  | cons c ps ih =>
    simp only [List.cons_append]
    cases hm : tryMatchAt (c :: (ps ++ t)) with
    | some pr => rw [findGitHubMatch_cons_some _ _ pr hm]; rfl
    | none =>
      have heq : findGitHubMatch (c :: (ps ++ t)) = findGitHubMatch (ps ++ t) := by
        simp [findGitHubMatch, hm]
      rw [heq]
      exact ih

theorem tryMatchAt_marker_ne_none (o r rest : List Char) (ho : o ≠ [])
    (ho2 : ∀ c ∈ o, c ≠ '/') (hr : r ≠ []) (hr2 : ∀ c ∈ r, c ≠ '/') :
    tryMatchAt (ghMarker ++ (o ++ '/' :: (r ++ rest))) ≠ none := by
  have ho2' : ∀ c ∈ o, isNotSlash c = true := by
    intro c hc; simp [isNotSlash]; exact ho2 c hc
  have hslash : isNotSlash '/' = false := by decide
  unfold tryMatchAt
  rw [stripPrefixChars_append]
  dsimp only
  rw [takeWhile_append_sat isNotSlash o '/' (r ++ rest) ho2' hslash]
  rw [if_neg ho]
  rw [dropWhile_append_sat isNotSlash o '/' (r ++ rest) ho2' hslash]
  dsimp only
  cases r with
  | nil => exact absurd rfl hr
  | cons c r' =>
    have hc : isNotSlash c = true := by
      simp [isNotSlash]; exact hr2 c (by simp)
    simp [List.cons_append, List.takeWhile_cons, hc]

theorem stripGitSuffix_subset (l : List Char) :
    ∀ c ∈ stripGitSuffix l, c ∈ l := by
  intro c hc
  unfold stripGitSuffix at hc
  split at hc
  · exact List.mem_reverse.mp
      (List.drop_subset 4 l.reverse (List.mem_reverse.mp hc))
  · exact hc

theorem stripGitSuffix_of_not (l : List Char) (h : endsWithDotGit l = false) :
    stripGitSuffix l = l := by
  unfold stripGitSuffix
  rw [h]
  simp

/-- C8 counterexample: `parseGitHubUrl` strips only one trailing `.git`,
so on `".../a/b.git.git"` it returns repo `"b.git"` — which still ends in
`.git`, contradicting "repo has no trailing .git" — and re-parsing the
produced canonical URL strips again, returning repo `"b"` rather than the
same `"b.git"`, contradicting idempotent re-serialization. -/
theorem parseGitHubUrl_counterexample :
    parseGitHubUrl "https://github.com/a/b.git.git"
        = some ⟨"a", "b.git", "https://github.com/a/b.git"⟩
      ∧ endsWithDotGit ("b.git" : String).data = true
      ∧ parseGitHubUrl "https://github.com/a/b.git"
        = some ⟨"a", "b", "https://github.com/a/b"⟩ := by
  decide

/-- C8 (amended): `parseGitHubUrl` either fails or returns owner, repo and
`fullUrl = "https://github.com/" ++ owner ++ "/" ++ repo`, where repo has
had ONE trailing `.git` stripped (so it can still end in `.git` when the
input had a doubled suffix); re-parsing `fullUrl` returns the same parse
whenever the returned repo is non-empty and does not itself end in
`.git`. -/
theorem parseGitHubUrl_amended :
    ∀ (s : String) (pu : ParsedUrl),
      parseGitHubUrl s = some pu →
      pu.fullUrl = "https://github.com/" ++ pu.owner ++ "/" ++ pu.repo
        ∧ (endsWithDotGit pu.repo.data = false → pu.repo ≠ "" →
            parseGitHubUrl pu.fullUrl = some pu) := by
  intro s pu hparse
  unfold parseGitHubUrl at hparse
  cases hm : findGitHubMatch s.data with
  | none => rw [hm] at hparse; simp at hparse
  | some pr =>
    obtain ⟨o, rRaw⟩ := pr
    rw [hm] at hparse
    dsimp only at hparse
    simp only [Option.some.injEq] at hparse
    subst hparse
    obtain ⟨ho, _hrRaw, ho2, hr2⟩ := findGitHubMatch_props s.data o rRaw hm
    refine ⟨rfl, ?_⟩
    intro hgit hne
    have hrpchars : ∀ c ∈ stripGitSuffix rRaw, c ≠ '/' :=
      fun c hc => hr2 c (stripGitSuffix_subset rRaw c hc)
    have hrpne : stripGitSuffix rRaw ≠ [] := by
      intro hnil
      apply hne
      show String.mk (stripGitSuffix rRaw) = ""
      rw [hnil]
    have hgit' : endsWithDotGit (stripGitSuffix rRaw) = false := hgit
    show parseGitHubUrl ("https://github.com/" ++ String.mk o ++ "/"
        ++ String.mk (stripGitSuffix rRaw)) = _
    unfold parseGitHubUrl
    have hdata : ("https://github.com/" ++ String.mk o ++ "/"
          ++ String.mk (stripGitSuffix rRaw)).data
        = ("https://" : String).data
          ++ (ghMarker ++ (o ++ '/' :: stripGitSuffix rRaw)) := by
      have hsplit : ("https://github.com/" : String).data
          = ("https://" : String).data ++ ghMarker := by decide
      simp [ghMarker, String.data_append, hsplit, List.append_assoc]
    rw [hdata, findGitHubMatch_https,
      findGitHubMatch_marker o (stripGitSuffix rRaw) ho ho2 hrpne hrpchars]
    dsimp only
    rw [stripGitSuffix_of_not (stripGitSuffix rRaw) hgit']

/-- C8 amended witness at a concrete clean URL: the canonical form is
reproduced and re-parsing returns the identical parse. -/
theorem parseGitHubUrl_amended_witness :
    (⟨"octocat", "hello-world",
        "https://github.com/octocat/hello-world"⟩ : ParsedUrl).fullUrl
        = "https://github.com/" ++ "octocat" ++ "/" ++ "hello-world"
      ∧ parseGitHubUrl "https://github.com/octocat/hello-world"
        = some ⟨"octocat", "hello-world",
            "https://github.com/octocat/hello-world"⟩ := by
  have h := parseGitHubUrl_amended "https://github.com/octocat/hello-world"
    ⟨"octocat", "hello-world", "https://github.com/octocat/hello-world"⟩
    (by decide)
  exact ⟨h.1, h.2 (by decide) (by decide)⟩

/-- C10: `parseGitHubUrl` succeeds on any string containing
`github.com/` followed by two non-empty slash-free segments, anywhere in
the string — no `https://` scheme is required and the host need not be
exactly `github.com`; in particular `"https://evil-github.com/a/b"`
parses successfully to owner `"a"` and repo `"b"`. -/
theorem parseGitHubUrl_lax :
    (∀ (pre o r post : String),
        o.data ≠ [] → r.data ≠ [] →
        (∀ c ∈ o.data, c ≠ '/') → (∀ c ∈ r.data, c ≠ '/') →
        (parseGitHubUrl
          (pre ++ "github.com/" ++ o ++ "/" ++ r ++ post)).isSome = true)
      ∧ parseGitHubUrl "https://evil-github.com/a/b"
        = some ⟨"a", "b", "https://github.com/a/b"⟩ := by
  constructor
  · intro pre o r post ho hr ho2 hr2
    have hdata : (pre ++ "github.com/" ++ o ++ "/" ++ r ++ post).data
        = pre.data
          ++ (ghMarker ++ (o.data ++ '/' :: (r.data ++ post.data))) := by
      simp [ghMarker, String.data_append, List.append_assoc]
    unfold parseGitHubUrl
    rw [hdata]
    have hsome := findGitHubMatch_append_isSome pre.data _
      (tryMatchAt_marker_ne_none o.data r.data post.data ho ho2 hr hr2)
    cases hm : findGitHubMatch (pre.data
        ++ (ghMarker ++ (o.data ++ '/' :: (r.data ++ post.data)))) with
    | none => rw [hm] at hsome; simp at hsome
    | some pr =>
      obtain ⟨a, b⟩ := pr
      dsimp only
      rfl
  · decide

/-- C10 witness: the general lax-matching property applied at the
concrete evil-host URL. -/
theorem parseGitHubUrl_lax_witness :
    (parseGitHubUrl
      ("https://evil-" ++ "github.com/" ++ "a" ++ "/" ++ "b" ++ "")).isSome
      = true :=
  parseGitHubUrl_lax.1 "https://evil-" "a" "b" ""
    (by decide) (by decide) (by decide) (by decide)

end GithubRss
